import Mathlib

/-!
Verification of the networking core of the repository: the browser
impersonation target model (`yt_dlp/networking/impersonate.py`) and the
requests-backed request handler (`yt_dlp/networking/_requests.py`).

Strings are modelled as `List Char`; Python `None` becomes `Option.none`.
-/

/-- A Python string, modelled as its list of characters. -/
abbrev PyStr := List Char

/-- `ImpersonateTarget` from `impersonate.py`: four optional string fields,
`None` meaning "match any". -/
structure ImpersonateTarget where
  client : Option PyStr := none
  version : Option PyStr := none
  os : Option PyStr := none
  os_vers : Option PyStr := none
deriving DecidableEq, Repr

/-- One clause of `ImpersonateTarget.__contains__`:
`self.f is None or target.f is None or self.f == target.f`. -/
def fieldMatch (s t : Option PyStr) : Bool :=
  s == none || t == none || s == t

/-- `ImpersonateTarget.__contains__(self, target)`: the conjunction of the
four per-field clauses. -/
def ImpersonateTarget.containsTgt (self target : ImpersonateTarget) : Bool :=
  fieldMatch self.client target.client
    && fieldMatch self.version target.version
    && fieldMatch self.os target.os
    && fieldMatch self.os_vers target.os_vers

/-- `A contained-in B`, i.e. Python `A in B`, which calls `B.__contains__(A)`. -/
def containedIn (a b : ImpersonateTarget) : Bool :=
  b.containsTgt a

/-- `ImpersonateRequestHandler._resolve_target`: for `None` resolve to
nothing; otherwise scan the supported targets in declared order and return
the first `T` with `target in T`. -/
def resolve_target (supported : List ImpersonateTarget) :
    Option ImpersonateTarget → Option ImpersonateTarget
  | none => none
  | some t => supported.find? (fun T => T.containsTgt t)

/-- `ImpersonateRequestHandler.is_supported_target`:
`self._resolve_target(target) is not None`. -/
def is_supported_target (supported : List ImpersonateTarget)
    (t : ImpersonateTarget) : Bool :=
  (resolve_target supported (some t)).isSome

/-- `ImpersonateRequestHandler._check_impersonate_target`; `true` means the
call raises `UnsupportedRequest`.  The code returns early when the target is
`None` or the handler's supported-target tuple is empty, and otherwise raises
iff `is_supported_target` is false. -/
def check_impersonate_target (supported : List ImpersonateTarget) :
    Option ImpersonateTarget → Bool
  | none => false
  | some t =>
    if supported = [] then false
    else !(is_supported_target supported t)

lemma fieldMatch_iff (s t : Option PyStr) :
    fieldMatch s t = true ↔ (t ≠ none → (t = s ∨ s = none)) := by
  cases s with
  | none => simp [fieldMatch]
  | some a =>
    cases t with
    | none => simp [fieldMatch]
    | some b =>
      simp only [fieldMatch, Bool.or_eq_true, beq_iff_eq]
      constructor
      · rintro ((h | h) | h) _
        · exact absurd h (by simp)
        · exact absurd h (by simp)
        · exact Or.inl (by simp [h])
      · intro h
        rcases h (by simp) with h | h
        · exact Or.inr (by simp at h; simp [h])
        · exact absurd h (by simp)

/-- C1: `A contained-in B` holds iff every non-None field of A equals the
corresponding field of B or that field of B is None; the all-None target is
contained in every target; containment is reflexive for fully-specified
targets. -/
theorem containedIn_characterization :
    (∀ A B : ImpersonateTarget, containedIn A B = true ↔
      ((A.client ≠ none → (A.client = B.client ∨ B.client = none))
        ∧ (A.version ≠ none → (A.version = B.version ∨ B.version = none))
        ∧ (A.os ≠ none → (A.os = B.os ∨ B.os = none))
        ∧ (A.os_vers ≠ none → (A.os_vers = B.os_vers ∨ B.os_vers = none))))
    ∧ (∀ B : ImpersonateTarget,
        containedIn ⟨none, none, none, none⟩ B = true)
    ∧ (∀ t : ImpersonateTarget,
        t.client ≠ none → t.version ≠ none → t.os ≠ none → t.os_vers ≠ none →
        containedIn t t = true) := by
  refine ⟨fun A B => ?_, fun B => ?_, fun t h1 h2 h3 h4 => ?_⟩
  · simp only [containedIn, ImpersonateTarget.containsTgt, Bool.and_eq_true,
      fieldMatch_iff]
    tauto
  · simp [containedIn, ImpersonateTarget.containsTgt, fieldMatch]
  · simp only [containedIn, ImpersonateTarget.containsTgt, Bool.and_eq_true,
      fieldMatch_iff]
    tauto

/-- Witness for C1: reflexivity holds at a concrete fully-specified target. -/
theorem containedIn_characterization_witness :
    containedIn ⟨some ['c'], some ['1'], some ['w'], some ['x']⟩
      ⟨some ['c'], some ['1'], some ['w'], some ['x']⟩ = true :=
  containedIn_characterization.2.2 ⟨some ['c'], some ['1'], some ['w'], some ['x']⟩
    (by decide) (by decide) (by decide) (by decide)

/-- C2: `_resolve_target` returns nothing for a `None` target, returns `none`
exactly when no supported target contains the request, and otherwise returns
the first supported target (in declared order) containing the request. -/
theorem resolve_target_spec :
    (∀ supported, resolve_target supported none = none)
    ∧ (∀ t supported, resolve_target supported (some t) = none ↔
        ∀ T ∈ supported, containedIn t T = false)
    ∧ (∀ t supported T, resolve_target supported (some t) = some T →
        containedIn t T = true ∧
        ∃ pre suf, supported = pre ++ T :: suf ∧
          ∀ U ∈ pre, containedIn t U = false) := by
  refine ⟨fun _ => rfl, fun t supported => ?_, fun t supported T h => ?_⟩
  · simp only [resolve_target, List.find?_eq_none, containedIn]
    constructor
    · intro h T hT
      simpa using h T hT
    · intro h T hT
      simpa using h T hT
  · induction supported with
    | nil => simp [resolve_target] at h
    | cons x xs ih =>
      simp only [resolve_target, List.find?_cons] at h
      cases hx : x.containsTgt t with
      | true =>
        simp only [hx] at h
        cases h
        exact ⟨hx, [], xs, rfl, by simp⟩
      | false =>
        simp only [hx] at h
        obtain ⟨hT, pre, suf, hsplit, hpre⟩ := ih h
        refine ⟨hT, x :: pre, suf, by simp [hsplit], ?_⟩
        intro U hU
        rcases List.mem_cons.mp hU with rfl | hU
        · simpa [containedIn] using hx
        · exact hpre U hU

/-- Witness for C2: the first-match clause at a concrete supported list. -/
theorem resolve_target_spec_witness :
    containedIn ⟨some ['c'], none, none, none⟩ ⟨some ['c'], none, none, none⟩ = true ∧
    ∃ pre suf,
      [ImpersonateTarget.mk (some ['e']) none none none,
       ImpersonateTarget.mk (some ['c']) none none none] =
        pre ++ ImpersonateTarget.mk (some ['c']) none none none :: suf ∧
      ∀ U ∈ pre, containedIn ⟨some ['c'], none, none, none⟩ U = false :=
  resolve_target_spec.2.2 ⟨some ['c'], none, none, none⟩
    [⟨some ['e'], none, none, none⟩, ⟨some ['c'], none, none, none⟩]
    ⟨some ['c'], none, none, none⟩ (by decide)

/-- C10: `_check_impersonate_target` raises exactly when the target is
non-None, the supported set is non-empty and resolution fails; an empty
supported map accepts every target. -/
theorem check_impersonate_target_spec :
    (∀ supported target, check_impersonate_target supported target = true ↔
      (target ≠ none ∧ supported ≠ [] ∧
        resolve_target supported target = none))
    ∧ (∀ target, check_impersonate_target [] target = false) := by
  constructor
  · intro supported target
    cases target with
    | none => simp [check_impersonate_target]
    | some t =>
      by_cases hs : supported = []
      · subst hs
        simp [check_impersonate_target, resolve_target]
      · simp [check_impersonate_target, hs, is_supported_target,
          Option.isSome_iff_ne_none]
  · intro target
    cases target <;> simp [check_impersonate_target]

/-! String serialization of `ImpersonateTarget` (`__str__` / `from_str`). -/

/-- Python `sep.join(parts)` for a one-character separator. -/
def pyJoin (sep : Char) : List PyStr → PyStr
  | [] => []
  | [p] => p
  | p :: q :: ps => p ++ sep :: pyJoin sep (q :: ps)

/-- Python `s.split(sep)` for a one-character separator. -/
def pySplit (sep : Char) : PyStr → List PyStr
  | [] => [[]]
  | c :: cs =>
    match pySplit sep cs with
    | [] => [[]]
    | p :: ps => if c = sep then [] :: p :: ps else (c :: p) :: ps

/-- Python `s.rstrip(':')`. -/
def rstripColon (s : PyStr) : PyStr :=
  (s.reverse.dropWhile (fun c => c == ':')).reverse

/-- The characters removed by Python `str.strip()` with no argument
(ASCII whitespace; the model does not cover non-ASCII whitespace). -/
def isPySpace (c : Char) : Bool :=
  c == ' ' || c == '\t' || c == '\n' || c == '\r' || c == '\x0b' || c == '\x0c'

/-- Python `s.strip()`. -/
def pyStrip (s : PyStr) : PyStr :=
  ((s.dropWhile isPySpace).reverse.dropWhile isPySpace).reverse

/-- `ImpersonateTarget.__str__`: join the four fields (`None` becoming the
empty string) with ':' and strip trailing colons. -/
def strTarget (t : ImpersonateTarget) : PyStr :=
  rstripColon (pyJoin ':'
    [t.client.getD [], t.version.getD [], t.os.getD [], t.os_vers.getD []])

/-- One piece of `from_str`: `v.strip() or None`. -/
def parseField (v : PyStr) : Option PyStr :=
  let w := pyStrip v
  if w = [] then none else some w

/-- `ImpersonateTarget.from_str`: split on ':', turn each piece into
`piece.strip() or None`, and pass the pieces positionally to the
constructor; more than four pieces is a `TypeError`, modelled as `none`. -/
def from_str (s : PyStr) : Option ImpersonateTarget :=
  let parts := (pySplit ':' s).map parseField
  if parts.length ≤ 4 then
    some ⟨parts.getD 0 none, parts.getD 1 none,
          parts.getD 2 none, parts.getD 3 none⟩
  else none

lemma pySplit_ne_nil (sep : Char) (s : PyStr) : pySplit sep s ≠ [] := by
  cases s with
  | nil => simp [pySplit]
  | cons c cs =>
    simp only [pySplit]
    cases pySplit sep cs with
    | nil => simp
    | cons p ps =>
      by_cases h : c = sep <;> simp [h]

lemma pySplit_no_sep (sep : Char) (s : PyStr) (h : sep ∉ s) :
    pySplit sep s = [s] := by
  induction s with
  | nil => rfl
  | cons c cs ih =>
    have hcs : sep ∉ cs := fun hm => h (List.mem_cons_of_mem _ hm)
    have hc : c ≠ sep := fun he => h (he ▸ List.mem_cons_self c cs)
    simp [pySplit, ih hcs, hc]

lemma pySplit_append (sep : Char) (a rest : PyStr) (h : sep ∉ a) :
    pySplit sep (a ++ sep :: rest) = a :: pySplit sep rest := by
  induction a with
  | nil =>
    simp only [List.nil_append, pySplit]
    cases hr : pySplit sep rest with
    | nil => exact absurd hr (pySplit_ne_nil sep rest)
    | cons p ps => simp
  | cons c a' ih =>
    have ha' : sep ∉ a' := fun hm => h (List.mem_cons_of_mem _ hm)
    have hc : c ≠ sep := fun he => h (he ▸ List.mem_cons_self c a')
    have key : pySplit sep ((c :: a') ++ sep :: rest)
        = match pySplit sep (a' ++ sep :: rest) with
          | [] => [[]]
          | p :: ps => if c = sep then [] :: p :: ps else (c :: p) :: ps := rfl
    rw [key, ih ha']
    simp [hc]

lemma rstripColon_append_colon (a : PyStr) :
    rstripColon (a ++ [':']) = rstripColon a := by
  simp [rstripColon, List.reverse_append]

lemma rstripColon_keep (a b : PyStr) (hb : b ≠ []) (h : ':' ∉ b) :
    rstripColon (a ++ b) = a ++ b := by
  unfold rstripColon
  rw [List.reverse_append]
  obtain ⟨x, xs, hbr⟩ := List.exists_cons_of_ne_nil
    (fun he : b.reverse = [] => hb (by simpa using he))
  have hx : x ∈ b := List.mem_reverse.mp (hbr ▸ List.mem_cons_self x xs)
  have hxc : (x == ':') = false := beq_eq_false_iff_ne.mpr fun he => h (he ▸ hx)
  have hstop : List.dropWhile (fun c => c == ':') (b.reverse ++ a.reverse)
      = b.reverse ++ a.reverse := by
    rw [hbr]
    simp [List.dropWhile_cons, hxc]
  rw [hstop, ← List.reverse_append, List.reverse_reverse]

/-- A field value that survives the `from_str` round trip: absent, or a
non-empty string without colons that `str.strip()` leaves unchanged. -/
def goodField : Option PyStr → Bool
  | none => true
  | some f => (decide (f ≠ [])) && (decide (':' ∉ f)) && (decide (pyStrip f = f))

lemma goodField_no_colon {f : Option PyStr} (h : goodField f = true) :
    ':' ∉ f.getD [] := by
  cases f with
  | none => simp
  | some s =>
    simp only [goodField, Bool.and_eq_true, decide_eq_true_eq] at h
    simpa using h.1.2

lemma parseField_self {f : PyStr} (h1 : pyStrip f = f) (h2 : f ≠ []) :
    parseField f = some f := by
  simp [parseField, h1, h2]

lemma parseField_good {f : Option PyStr} (h : goodField f = true) :
    parseField (f.getD []) = f := by
  cases f with
  | none => rfl
  | some s =>
    simp only [goodField, Bool.and_eq_true, decide_eq_true_eq] at h
    simp [parseField, h.2, h.1.1]

lemma strTarget_last4 (cf vf sf : Option PyStr) (w : PyStr)
    (h1 : w ≠ []) (h2 : ':' ∉ w) :
    strTarget ⟨cf, vf, sf, some w⟩ =
      cf.getD [] ++ ':' :: (vf.getD [] ++ ':' :: (sf.getD [] ++ ':' :: w)) := by
  show rstripColon
    (cf.getD [] ++ ':' :: (vf.getD [] ++ ':' :: (sf.getD [] ++ ':' :: w))) = _
  have := rstripColon_keep
    (cf.getD [] ++ ':' :: (vf.getD [] ++ ':' :: (sf.getD [] ++ [':']))) w h1 h2
  simpa [List.append_assoc] using this

lemma strTarget_last3 (cf vf : Option PyStr) (s : PyStr)
    (h1 : s ≠ []) (h2 : ':' ∉ s) :
    strTarget ⟨cf, vf, some s, none⟩ =
      cf.getD [] ++ ':' :: (vf.getD [] ++ ':' :: s) := by
  show rstripColon
    (cf.getD [] ++ ':' :: (vf.getD [] ++ ':' :: (s ++ ':' :: []))) = _
  have h3 := rstripColon_append_colon
    (cf.getD [] ++ ':' :: (vf.getD [] ++ ':' :: s))
  have h4 := rstripColon_keep (cf.getD [] ++ ':' :: (vf.getD [] ++ [':'])) s h1 h2
  simp only [List.append_assoc, List.cons_append, List.singleton_append,
    List.nil_append] at h3 h4 ⊢
  rw [h3, h4]

lemma strTarget_last2 (cf : Option PyStr) (v : PyStr)
    (h1 : v ≠ []) (h2 : ':' ∉ v) :
    strTarget ⟨cf, some v, none, none⟩ = cf.getD [] ++ ':' :: v := by
  show rstripColon (cf.getD [] ++ ':' :: (v ++ ':' :: ([] ++ ':' :: []))) = _
  have h3 := rstripColon_append_colon (cf.getD [] ++ ':' :: (v ++ [':']))
  have h4 := rstripColon_append_colon (cf.getD [] ++ ':' :: v)
  have h5 := rstripColon_keep (cf.getD [] ++ [':']) v h1 h2
  simp only [List.append_assoc, List.cons_append, List.singleton_append,
    List.nil_append] at h3 h4 h5 ⊢
  rw [h3, h4, h5]

lemma strTarget_last1 (c : PyStr) (h1 : c ≠ []) (h2 : ':' ∉ c) :
    strTarget ⟨some c, none, none, none⟩ = c := by
  show rstripColon (c ++ ':' :: ([] ++ ':' :: ([] ++ ':' :: []))) = _
  have h3 := rstripColon_append_colon (c ++ [':', ':'])
  have h4 := rstripColon_append_colon (c ++ [':'])
  have h5 := rstripColon_append_colon c
  have h6 := rstripColon_keep [] c h1 h2
  simp only [List.append_assoc, List.cons_append, List.singleton_append,
    List.nil_append] at h3 h4 h5 h6 ⊢
  rw [h3, h4, h5, h6]

lemma pySplit_shape4 (p1 p2 p3 p4 : PyStr) (h1 : ':' ∉ p1) (h2 : ':' ∉ p2)
    (h3 : ':' ∉ p3) (h4 : ':' ∉ p4) :
    pySplit ':' (p1 ++ ':' :: (p2 ++ ':' :: (p3 ++ ':' :: p4)))
      = [p1, p2, p3, p4] := by
  rw [pySplit_append ':' p1 _ h1, pySplit_append ':' p2 _ h2,
    pySplit_append ':' p3 _ h3, pySplit_no_sep ':' p4 h4]

lemma pySplit_shape3 (p1 p2 p3 : PyStr) (h1 : ':' ∉ p1) (h2 : ':' ∉ p2)
    (h3 : ':' ∉ p3) :
    pySplit ':' (p1 ++ ':' :: (p2 ++ ':' :: p3)) = [p1, p2, p3] := by
  rw [pySplit_append ':' p1 _ h1, pySplit_append ':' p2 _ h2,
    pySplit_no_sep ':' p3 h3]

lemma pySplit_shape2 (p1 p2 : PyStr) (h1 : ':' ∉ p1) (h2 : ':' ∉ p2) :
    pySplit ':' (p1 ++ ':' :: p2) = [p1, p2] := by
  rw [pySplit_append ':' p1 _ h1, pySplit_no_sep ':' p2 h2]

/-- C5 counterexample: the target with `client = ''` has no colon in any
field value, yet `from_str(str(t))` collapses it to the all-None target. -/
theorem from_str_strTarget_counterexample :
    (':' ∉ ([] : PyStr))
    ∧ from_str (strTarget ⟨some [], none, none, none⟩)
        = some ⟨none, none, none, none⟩
    ∧ (ImpersonateTarget.mk (some []) none none none)
        ≠ ⟨none, none, none, none⟩ := by
  refine ⟨by simp, ?_, by simp⟩
  rfl

/-- C5 (amended): `from_str(str(t))` reproduces `t` for every target each of
whose non-None fields is non-empty, contains no colon, and is unchanged by
`str.strip()`. -/
theorem from_str_strTarget_roundtrip :
    ∀ t : ImpersonateTarget,
      goodField t.client = true → goodField t.version = true →
      goodField t.os = true → goodField t.os_vers = true →
      from_str (strTarget t) = some t := by
  rintro ⟨cf, vf, sf, wf⟩ hc hv hs hw
  cases wf with
  | some w =>
    have hw' : (decide (w ≠ []) && decide (':' ∉ w) && decide (pyStrip w = w)) = true := hw
    simp only [Bool.and_eq_true, decide_eq_true_eq] at hw'
    rw [strTarget_last4 cf vf sf w hw'.1.1 hw'.1.2]
    rw [from_str, pySplit_shape4 _ _ _ _ (goodField_no_colon hc)
      (goodField_no_colon hv) (goodField_no_colon hs) hw'.1.2]
    simp [parseField_good hc, parseField_good hv, parseField_good hs,
      parseField_self hw'.2 hw'.1.1, List.getD]
  | none =>
  cases sf with
  | some s =>
    have hs' : (decide (s ≠ []) && decide (':' ∉ s) && decide (pyStrip s = s)) = true := hs
    simp only [Bool.and_eq_true, decide_eq_true_eq] at hs'
    rw [strTarget_last3 cf vf s hs'.1.1 hs'.1.2]
    rw [from_str, pySplit_shape3 _ _ _ (goodField_no_colon hc)
      (goodField_no_colon hv) hs'.1.2]
    simp [parseField_good hc, parseField_good hv,
      parseField_self hs'.2 hs'.1.1, List.getD]
  | none =>
  cases vf with
  | some v =>
    have hv' : (decide (v ≠ []) && decide (':' ∉ v) && decide (pyStrip v = v)) = true := hv
    simp only [Bool.and_eq_true, decide_eq_true_eq] at hv'
    rw [strTarget_last2 cf v hv'.1.1 hv'.1.2]
    rw [from_str, pySplit_shape2 _ _ (goodField_no_colon hc) hv'.1.2]
    simp [parseField_good hc, parseField_self hv'.2 hv'.1.1, List.getD]
  | none =>
  cases cf with
  | some c =>
    have hc' : (decide (c ≠ []) && decide (':' ∉ c) && decide (pyStrip c = c)) = true := hc
    simp only [Bool.and_eq_true, decide_eq_true_eq] at hc'
    rw [strTarget_last1 c hc'.1.1 hc'.1.2]
    rw [from_str, pySplit_no_sep ':' c hc'.1.2]
    simp [parseField_self hc'.2 hc'.1.1, List.getD]
  | none => rfl

/-- Witness for the amended C5 round trip at a concrete target. -/
theorem from_str_strTarget_roundtrip_witness :
    from_str (strTarget ⟨some ['c', 'h'], some ['1', '0'], none, none⟩)
      = some ⟨some ['c', 'h'], some ['1', '0'], none, none⟩ :=
  from_str_strTarget_roundtrip ⟨some ['c', 'h'], some ['1', '0'], none, none⟩
    (by decide) (by decide) (by decide) (by decide)

/-! Impersonation header stripping (`_get_impersonate_headers`). -/

/-- HTTP headers: an association list of name/value pairs whose names compare
case-insensitively (the `HTTPHeaderDict` of the networking framework). -/
abbrev Headers := List (String × String)

/-- `_IMPERSONATE_HEADERS_BLACKLIST` from `impersonate.py`. -/
def IMPERSONATE_HEADERS_BLACKLIST : List String :=
  ["User-Agent", "Accept-Language", "Sec-Fetch-Mode", "Sec-Fetch-Site",
   "Sec-Fetch-User", "Sec-Fetch-Dest", "Upgrade-Insecure-Requests",
   "Sec-Ch-Ua", "Sec-Ch-Ua-Mobile", "Sec-Ch-Ua-Platform"]

/-- `headers.pop(name, None)` on a case-insensitive header mapping: drop the
entry whose name matches case-insensitively. -/
def headersPop (hs : Headers) (name : String) : Headers :=
  hs.filter (fun kv => kv.1.toLower != name.toLower)

/-- `request.extensions.get('impersonate') or self.impersonate`: every
`ImpersonateTarget` object is truthy in Python (no `__bool__`/`__len__`), so
the handler default applies only when the extension value is absent or None. -/
def get_request_target (extImpersonate dflt : Option ImpersonateTarget) :
    Option ImpersonateTarget :=
  match extImpersonate with
  | some t => some t
  | none => dflt

/-- `_get_impersonate_headers`, parameterized by the already-merged header
mapping (`_merge_headers` lives outside this file's sources): when the
effective target is not None, pop every blacklisted header. -/
def get_impersonate_headers (merged : Headers)
    (extImpersonate dflt : Option ImpersonateTarget) : Headers :=
  if get_request_target extImpersonate dflt ≠ none then
    IMPERSONATE_HEADERS_BLACKLIST.foldl headersPop merged
  else merged

lemma mem_foldl_headersPop (bl : List String) (hs : Headers)
    (kv : String × String) :
    kv ∈ bl.foldl headersPop hs ↔
      kv ∈ hs ∧ ∀ b ∈ bl, kv.1.toLower ≠ b.toLower := by
  induction bl generalizing hs with
  | nil => simp
  | cons b bl ih =>
    simp only [List.foldl_cons, ih, headersPop, List.mem_filter,
      List.mem_cons, bne_iff_ne, ne_eq]
    constructor
    · rintro ⟨⟨h1, h2⟩, h3⟩
      exact ⟨h1, fun x hx => by
        rcases hx with rfl | hx
        · exact h2
        · exact h3 x hx⟩
    · rintro ⟨h1, h2⟩
      exact ⟨⟨h1, h2 b (Or.inl rfl)⟩, fun x hx => h2 x (Or.inr hx)⟩

/-- C6: with an effective impersonation target, `_get_impersonate_headers`
removes exactly the blacklisted header names (case-insensitively) from the
merged headers and keeps every other entry; with no effective target the
headers pass through unchanged; the all-fields-None target is an active
target, distinct from "no impersonation requested". -/
theorem get_impersonate_headers_spec :
    (∀ (merged : Headers) ext dflt, get_request_target ext dflt ≠ none →
      ∀ kv : String × String,
        (kv ∈ get_impersonate_headers merged ext dflt ↔
          kv ∈ merged ∧
            kv.1.toLower ∉ IMPERSONATE_HEADERS_BLACKLIST.map String.toLower))
    ∧ (∀ (merged : Headers) ext dflt, get_request_target ext dflt = none →
        get_impersonate_headers merged ext dflt = merged)
    ∧ (∀ dflt, get_request_target (some ⟨none, none, none, none⟩) dflt
        = some ⟨none, none, none, none⟩)
    ∧ get_request_target none none = none := by
  refine ⟨fun merged ext dflt h kv => ?_, fun merged ext dflt h => ?_,
    fun dflt => rfl, rfl⟩
  · simp only [get_impersonate_headers, if_pos h, mem_foldl_headersPop,
      List.mem_map]
    constructor
    · rintro ⟨h1, h2⟩
      refine ⟨h1, fun hmem => ?_⟩
      obtain ⟨b, hb, he⟩ := hmem
      exact h2 b hb he.symm
    · rintro ⟨h1, h2⟩
      exact ⟨h1, fun b hb he => h2 ⟨b, hb, he.symm⟩⟩
  · simp [get_impersonate_headers, h]

/-- Witness for C6 at a concrete header map and the wildcard target. -/
theorem get_impersonate_headers_spec_witness :
    (("Accept", "x") ∈ get_impersonate_headers
        [("User-Agent", "UA"), ("Accept", "x")]
        (some ⟨none, none, none, none⟩) none ↔
      ("Accept", "x") ∈ ([("User-Agent", "UA"), ("Accept", "x")] : Headers) ∧
        ("Accept" : String).toLower ∉
          IMPERSONATE_HEADERS_BLACKLIST.map String.toLower) :=
  get_impersonate_headers_spec.1 [("User-Agent", "UA"), ("Accept", "x")]
    (some ⟨none, none, none, none⟩) none (by decide) ("Accept", "x")

/-! Handler preferences and registry selection. -/

/-- The part of a `Request` the preference functions inspect: the value of
the `impersonate` extension (absent/None collapse to `none`). -/
structure Request where
  impersonate : Option ImpersonateTarget := none
deriving DecidableEq, Repr

/-- A registered handler relevant to the preference claims: the
requests-backed baseline handler, or an impersonation-capable handler
carrying its default impersonate target. -/
inductive Handler where
  | requestsRH
  | impersonateRH (impersonate : Option ImpersonateTarget)
deriving DecidableEq, Repr

/-- `impersonate_preference` from `impersonate.py`, registered for
`ImpersonateRequestHandler` only: 1000 when the request's impersonate
extension or the handler's default target is set, 0 otherwise. -/
def impersonate_preference (rhImpersonate : Option ImpersonateTarget)
    (request : Request) : Nat :=
  if request.impersonate ≠ none ∨ rhImpersonate ≠ none then 1000 else 0

/-- `requests_preference` from `_requests.py`, registered for `RequestsRH`
only: a constant 100. -/
def requests_preference (_rh : Handler) (_request : Request) : Nat := 100

/-- Modelled from the spec: the handler registry and preference resolver live
in `networking/common.py`, which is not among the sources.  Per §4.5 a
handler's score sums the registered preference functions scoped to its class:
`requests_preference` applies to the requests handler and
`impersonate_preference` to impersonation-capable handlers. -/
def handlerScore (h : Handler) (request : Request) : Nat :=
  match h with
  | .requestsRH => requests_preference h request
  | .impersonateRH d => impersonate_preference d request

/-- Modelled from the spec (§4.5): among eligible handlers the strictly
highest score wins and ties break by registration order. -/
def selectHandler (handlers : List Handler) (request : Request) :
    Option Handler :=
  handlers.foldl (fun best h =>
    match best with
    | none => some h
    | some b =>
      if handlerScore h request > handlerScore b request then some h
      else some b) none

/-- C3: the registered preference functions give an impersonation-capable
handler 1000 when impersonation is requested and 0 when neither the request
nor the handler asks for it, while the requests handler always scores its 100
baseline; consequently, with both handlers registered, a request with the
`impersonate` extension selects the impersonation-capable handler and a
request without it selects the baseline handler. -/
theorem preference_selection_spec :
    (∀ (d : Option ImpersonateTarget) (request : Request),
      request.impersonate ≠ none → impersonate_preference d request = 1000)
    ∧ (∀ request : Request, handlerScore Handler.requestsRH request = 100)
    ∧ (∀ request : Request, request.impersonate = none →
        handlerScore (Handler.impersonateRH none) request = 0)
    ∧ (∀ (d : Option ImpersonateTarget) (t : ImpersonateTarget),
        selectHandler [Handler.requestsRH, Handler.impersonateRH d]
          ⟨some t⟩ = some (Handler.impersonateRH d))
    ∧ selectHandler [Handler.requestsRH, Handler.impersonateRH none]
        ⟨none⟩ = some Handler.requestsRH := by
  refine ⟨fun d request h => ?_, fun request => rfl, fun request h => ?_,
    fun d t => ?_, ?_⟩
  · simp [impersonate_preference, h]
  · simp [handlerScore, impersonate_preference, h]
  · simp [selectHandler, handlerScore, impersonate_preference,
      requests_preference]
  · rfl

/-- Witness for C3: the preference values at concrete requests. -/
theorem preference_selection_spec_witness :
    impersonate_preference none ⟨some ⟨none, none, none, none⟩⟩ = 1000 ∧
    handlerScore (Handler.impersonateRH none) ⟨none⟩ = 0 :=
  ⟨preference_selection_spec.1 none ⟨some ⟨none, none, none, none⟩⟩ (by decide),
   preference_selection_spec.2.2.1 ⟨none⟩ (by decide)⟩

/-! `RequestsRH._send`: status-code contract and redirect-loop flag. -/

/-- A native `requests` response, as far as `_send` inspects it. -/
structure RawResponse where
  status_code : Nat
  reason : String := ""
  url : String := ""
  bodyTag : Nat := 0
deriving DecidableEq, Repr

/-- `RequestsResponseAdapter.__init__`: keeps the native response and copies
its status/reason/url. -/
structure RequestsResponseAdapter where
  requests_response : RawResponse
  status : Nat
  reason : String
  url : String
deriving DecidableEq, Repr

/-- Build the adapter exactly as the constructor does. -/
def mkAdapter (res : RawResponse) : RequestsResponseAdapter :=
  ⟨res, res.status_code, res.reason, res.url⟩

/-- The outcome of `session.request(...)` inside `_send`: a response, a
`TooManyRedirects` carrying the final hop's response, or one of the caught
exception classes. -/
inductive SessionOutcome where
  | success (res : RawResponse)
  | tooManyRedirects (res : RawResponse)
  | sslError (msg : PyStr)
  | proxyError
  | connectionError
  | urllib3Error
  | requestException
deriving DecidableEq, Repr

/-- The taxonomy exits of `_send`. -/
inductive SendError where
  | httpError (res : RequestsResponseAdapter) (redirect_loop : Bool)
  | certificateVerifyError
  | sslError
  | proxyError
  | transportError
  | requestError
deriving DecidableEq, Repr

/-- Whether `pattern` starts the string `s` (helper for substring search). -/
def pyStartsWith : PyStr → PyStr → Bool
  | [], _ => true
  | _ :: _, [] => false
  | p :: ps, c :: cs => p == c && pyStartsWith ps cs

/-- Python `pattern in s` for strings: contiguous substring search. -/
def pyContainsSub (pattern : PyStr) (s : PyStr) : Bool :=
  match s with
  | [] => pyStartsWith pattern []
  | c :: cs => pyStartsWith pattern (c :: cs) || pyContainsSub pattern cs

/-- `'CERTIFICATE_VERIFY_FAILED' in str(e)`. -/
def certVerifyMarker (msg : PyStr) : Bool :=
  pyContainsSub ("CERTIFICATE_VERIFY_FAILED".toList) msg

/-- The tail of `_send`: adapt the response and gate on the final status,
raising `HTTPError` with the `max_redirects_exceeded` flag otherwise. -/
def statusGate (res : RawResponse) (max_redirects_exceeded : Bool) :
    Except SendError RequestsResponseAdapter :=
  let r := mkAdapter res
  if 200 ≤ r.status ∧ r.status < 300 then Except.ok r
  else Except.error (SendError.httpError r max_redirects_exceeded)

/-- `RequestsRH._send` as a function of the session outcome. -/
def send (outcome : SessionOutcome) :
    Except SendError RequestsResponseAdapter :=
  match outcome with
  | .success res => statusGate res false
  | .tooManyRedirects res => statusGate res true
  | .sslError msg =>
    if certVerifyMarker msg then Except.error SendError.certificateVerifyError
    else Except.error SendError.sslError
  | .proxyError => Except.error SendError.proxyError
  | .connectionError => Except.error SendError.transportError
  | .urllib3Error => Except.error SendError.transportError
  | .requestException => Except.error SendError.requestError

/-- C4: `_send` returns a Response exactly when the final status lies in
[200,300); otherwise it raises `HTTPError` wrapping the full adapted
response, with `redirect_loop` set exactly in the `TooManyRedirects` case,
whose wrapped response is the final hop's. -/
theorem send_status_contract :
    (∀ res : RawResponse,
      send (SessionOutcome.success res) =
        if 200 ≤ res.status_code ∧ res.status_code < 300
        then Except.ok (mkAdapter res)
        else Except.error (SendError.httpError (mkAdapter res) false))
    ∧ (∀ res : RawResponse,
        ¬(200 ≤ res.status_code ∧ res.status_code < 300) →
        send (SessionOutcome.tooManyRedirects res) =
          Except.error (SendError.httpError (mkAdapter res) true))
    ∧ (∀ (outcome : SessionOutcome) (r : RequestsResponseAdapter),
        send outcome = Except.ok r →
        (200 ≤ r.status ∧ r.status < 300) ∧
          (outcome = SessionOutcome.success r.requests_response ∨
           outcome = SessionOutcome.tooManyRedirects r.requests_response)) := by
  refine ⟨fun res => rfl, fun res h => ?_, fun outcome r h => ?_⟩
  · simp [send, statusGate, mkAdapter, h]
  · cases outcome with
    | success res =>
      simp only [send, statusGate] at h
      by_cases hst : 200 ≤ (mkAdapter res).status ∧ (mkAdapter res).status < 300
      · rw [if_pos hst] at h
        cases h
        exact ⟨hst, Or.inl rfl⟩
      · rw [if_neg hst] at h
        cases h
    | tooManyRedirects res =>
      simp only [send, statusGate] at h
      by_cases hst : 200 ≤ (mkAdapter res).status ∧ (mkAdapter res).status < 300
      · rw [if_pos hst] at h
        cases h
        exact ⟨hst, Or.inr rfl⟩
      · rw [if_neg hst] at h
        cases h
    | sslError msg =>
      by_cases hm : certVerifyMarker msg = true <;> simp [send, hm] at h
    | proxyError => simp [send] at h
    | connectionError => simp [send] at h
    | urllib3Error => simp [send] at h
    | requestException => simp [send] at h

/-- Witness for C4: the 301-after-redirect-limit case and the ok case. -/
theorem send_status_contract_witness :
    send (SessionOutcome.tooManyRedirects ⟨301, "", "", 0⟩) =
      Except.error (SendError.httpError (mkAdapter ⟨301, "", "", 0⟩) true) ∧
    ((200 ≤ (mkAdapter ⟨204, "", "", 0⟩).status ∧
        (mkAdapter ⟨204, "", "", 0⟩).status < 300) ∧
      (SessionOutcome.success ⟨204, "", "", 0⟩ =
          SessionOutcome.success (mkAdapter ⟨204, "", "", 0⟩).requests_response ∨
        SessionOutcome.success ⟨204, "", "", 0⟩ =
          SessionOutcome.tooManyRedirects
            (mkAdapter ⟨204, "", "", 0⟩).requests_response)) :=
  ⟨send_status_contract.2.1 ⟨301, "", "", 0⟩ (by decide),
   send_status_contract.2.2 (SessionOutcome.success ⟨204, "", "", 0⟩)
     (mkAdapter ⟨204, "", "", 0⟩) rfl⟩

/-! `RequestsResponseAdapter.read`: incomplete reads are never silent. -/

/-- An `http.client.IncompleteRead` (possibly nested in a urllib3
`ProtocolError`): a byte string of received bytes and an optional count of
bytes still expected. -/
structure HttpClientIncompleteRead where
  partialBytes : List Nat
  expected : Option Nat
deriving DecidableEq, Repr

/-- The outcome of `self.fp.read(amt, decode_content=True)`: data, or one of
the exception classes enumerated in `read`'s handlers. -/
inductive ReadOutcome where
  | data (bytes : List Nat)
  | sslError
  | incompleteRead (partialCount expected : Nat)
  | protocolError (nested : Option HttpClientIncompleteRead)
  | httpError
deriving DecidableEq, Repr

/-- The taxonomy exits of `read`. -/
inductive ReadError where
  | sslError
  | incompleteRead (partialCount : Nat) (expected : Option Nat)
  | transportError
deriving DecidableEq, Repr

/-- `RequestsResponseAdapter.read` as a function of the underlying outcome:
urllib3 `IncompleteRead` carries integer partial/expected and is re-raised
field-for-field; a `ProtocolError` nesting an `http.client.IncompleteRead`
is re-raised with `partial=len(e.partial)`; other urllib3 errors map to
`TransportError`. -/
def read (outcome : ReadOutcome) : Except ReadError (List Nat) :=
  match outcome with
  | .data bs => Except.ok bs
  | .sslError => Except.error ReadError.sslError
  | .incompleteRead p e => Except.error (ReadError.incompleteRead p (some e))
  | .protocolError (some ir) =>
    Except.error (ReadError.incompleteRead ir.partialBytes.length ir.expected)
  | .protocolError none => Except.error ReadError.transportError
  | .httpError => Except.error ReadError.transportError

/-- C7: a short body surfaces as `IncompleteRead` with `partial` the bytes
received and `expected` taken from the underlying error, in both the urllib3
`IncompleteRead` and the `ProtocolError`-nested `http.client.IncompleteRead`
forms; `read` returns bytes only when the underlying read produced bytes, so
a short body is never silently returned. -/
theorem read_incomplete_spec :
    (∀ p e, read (ReadOutcome.incompleteRead p e) =
      Except.error (ReadError.incompleteRead p (some e)))
    ∧ (∀ (bs : List Nat) (e : Option Nat),
        read (ReadOutcome.protocolError (some ⟨bs, e⟩)) =
          Except.error (ReadError.incompleteRead bs.length e))
    ∧ (∀ (outcome : ReadOutcome) (bs : List Nat),
        read outcome = Except.ok bs → outcome = ReadOutcome.data bs) := by
  refine ⟨fun p e => rfl, fun bs e => rfl, fun outcome bs h => ?_⟩
  cases outcome with
  | data bs' =>
    cases h
    rfl
  | sslError => cases h
  | incompleteRead p e => cases h
  | protocolError nested => cases nested <;> cases h
  | httpError => cases h

/-- Witness for C7: the 400-of-1000 instance and a clean read. -/
theorem read_incomplete_spec_witness :
    read (ReadOutcome.incompleteRead 400 1000) =
      Except.error (ReadError.incompleteRead 400 (some 1000)) ∧
    ReadOutcome.data [7] = ReadOutcome.data [7] :=
  ⟨read_incomplete_spec.1 400 1000,
   read_incomplete_spec.2.2 (ReadOutcome.data [7]) [7] rfl⟩

/-! `SocksHTTPConnection._new_conn`: failure mapping. -/

/-- The exception raised by `create_connection` with the SOCKS handshake
socket factory: a socket timeout (`socket.timeout`/`TimeoutError`), a
SOCKS-protocol `ProxyError` from `yt_dlp.socks`, or any other OS-level
socket failure, each carrying its message. -/
inductive ConnectException where
  | sockTimeout
  | socksProxyError (msg : PyStr)
  | osError (msg : PyStr)
deriving DecidableEq, Repr

/-- The result of `_new_conn`: a connection, or one of the three urllib3
error classes raised by the handlers. -/
inductive NewConnResult where
  | connected
  | connectTimeoutError (msg : PyStr)
  | proxyError (msg : PyStr)
  | newConnectionError (msg : PyStr)
deriving DecidableEq, Repr

/-- `SocksHTTPConnection._new_conn` as a function of the connection attempt's
outcome, with the host and timeout rendered into the messages as in the
source's f-strings. -/
def new_conn (host timeoutStr : PyStr) :
    Option ConnectException → NewConnResult
  | none => NewConnResult.connected
  | some ConnectException.sockTimeout =>
    NewConnResult.connectTimeoutError
      ("Connection to ".toList ++ host ++ " timed out. (connect timeout=".toList
        ++ timeoutStr ++ ")".toList)
  | some (ConnectException.socksProxyError m) => NewConnResult.proxyError m
  | some (ConnectException.osError m) =>
    NewConnResult.newConnectionError
      ("Failed to establish a new connection: ".toList ++ m)

/-- C8: a socket timeout maps to a connect-timeout error, a SOCKS protocol
failure maps to a proxy error carrying the protocol error's message, any
other OS failure maps to a new-connection error whose message contains the
underlying OS error message, and the three error classes are pairwise
distinct. -/
theorem new_conn_failure_mapping :
    (∀ host tmo, ∃ m,
      new_conn host tmo (some ConnectException.sockTimeout) =
        NewConnResult.connectTimeoutError m)
    ∧ (∀ host tmo m,
        new_conn host tmo (some (ConnectException.socksProxyError m)) =
          NewConnResult.proxyError m)
    ∧ (∀ host tmo m, ∃ s,
        new_conn host tmo (some (ConnectException.osError m)) =
          NewConnResult.newConnectionError s ∧ ∃ pre, s = pre ++ m)
    ∧ (∀ host tmo m m',
        new_conn host tmo (some ConnectException.sockTimeout) ≠
          new_conn host tmo (some (ConnectException.socksProxyError m))
        ∧ new_conn host tmo (some ConnectException.sockTimeout) ≠
            new_conn host tmo (some (ConnectException.osError m))
        ∧ new_conn host tmo (some (ConnectException.socksProxyError m)) ≠
            new_conn host tmo (some (ConnectException.osError m'))) := by
  refine ⟨fun host tmo => ⟨_, rfl⟩, fun host tmo m => rfl,
    fun host tmo m => ⟨_, rfl, "Failed to establish a new connection: ".toList,
      rfl⟩, fun host tmo m m' => ?_⟩
  refine ⟨?_, ?_, ?_⟩ <;> simp [new_conn]

/-! The redirect-method-rewrite guard in `RequestsSession.rebuild_method`. -/

/-- The guard as written in `_requests.py`:
`if not new_method != prepared_request.method`. -/
def rebuild_guard_v1 (new_method method : PyStr) : Bool :=
  !(new_method != method)

/-- The other guard form named by the spec:
`if new_method == prepared_request.method`. -/
def rebuild_guard_v2 (new_method method : PyStr) : Bool :=
  new_method == method

/-- The effect of `rebuild_method` on the response status under guard form
v1: substitute the synthetic 308 when the guard fires. -/
def rebuild_status_v1 (new_method method : PyStr) (status : Nat) : Nat :=
  if rebuild_guard_v1 new_method method then 308 else status

/-- The effect of `rebuild_method` on the response status under guard form
v2. -/
def rebuild_status_v2 (new_method method : PyStr) (status : Nat) : Nat :=
  if rebuild_guard_v2 new_method method then 308 else status

/-- C9 counterexample: there is no pair of method values on which the two
guard forms disagree — `not (a != b)` and `a == b` are the same Boolean. -/
theorem rebuild_guard_counterexample :
    ¬ ∃ nm m : PyStr, rebuild_guard_v1 nm m ≠ rebuild_guard_v2 nm m := by
  rintro ⟨nm, m, h⟩
  exact h (by simp [rebuild_guard_v1, rebuild_guard_v2, bne])

/-- C9 (amended): the two guard forms agree on every pair of methods — both
substitute the synthetic 308 exactly when the redirect-rewritten method
equals the original method — so the two handler versions do not disagree on
polarity. -/
theorem rebuild_guard_equivalence :
    ∀ nm m : PyStr,
      rebuild_guard_v1 nm m = rebuild_guard_v2 nm m
      ∧ (rebuild_guard_v1 nm m = true ↔ nm = m)
      ∧ ∀ status, rebuild_status_v1 nm m status = rebuild_status_v2 nm m status := by
  intro nm m
  have h : rebuild_guard_v1 nm m = rebuild_guard_v2 nm m := by
    simp [rebuild_guard_v1, rebuild_guard_v2, bne]
  exact ⟨h, by simp [rebuild_guard_v1, bne],
    fun status => by simp [rebuild_status_v1, rebuild_status_v2, h]⟩
